import Mathlib

/-!
Verification of the live-HLS publisher engine (src/hls.go).

The Go code is shallowly embedded with value semantics:

* `time.Duration` values (int64 nanoseconds) are modeled as `Int`; the
  realistic magnitudes here (seconds to minutes) are far below 2^63 ns,
  so int64 overflow branches (e.g. the saturation cases of
  `time.Duration.Round`) are not modeled.
* Go `/` and `%` on int64 truncate toward zero; they are modeled with
  `Int.tdiv` and `Int.tmod`.
* The external collaborators (the `ts.Muxer` and the segment backing
  storage) are modeled as oracles passed to each operation: an
  `Option (List Nat)` for muxed bytes (`none` = mux error) and an
  `allocOk : Int → Bool` predicate telling whether a segment allocation
  with a given id succeeds.  `time.Now().UnixNano()` is the `now`
  argument.
* The `segment` type lives in a source file that was not provided
  (only `hls.go` is given); its fields and operations are modelled from
  the specification, as marked on each definition.
* Go's `p.current` aliases the last element of `p.segments`; with value
  semantics every mutation through the alias is applied to both copies
  (see `setLast`).
* Functions that in Go mutate the receiver return the new `Publisher`;
  where an accounting invariant needs the number of segment allocations
  performed during a call, the function additionally returns that count
  as a ghost `Nat` component (it mirrors the number of calls to the
  segment constructor and influences nothing).
-/

/-- Lifecycle states of a media segment.  Modelled from the spec (§3):
`Created → Active → Finalized → Released`. -/
inductive SegState where
  | created : SegState
  | active : SegState
  | finalized : SegState
  | released : SegState
deriving DecidableEq, Repr

/-- Modelled from the spec: the `segment` type of this repository is not in
the provided source (`src/` holds only `hls.go`).  Per §3 it has a numeric
id with a derived resource name, the muxed header bytes, an append-only
payload, a start time, a duration `dur` (provisional at activation,
final after finalization), a discontinuity flag `dcn`, and a lifecycle
state.  The fields `name`, `dur`, `dcn` are the ones read directly by
`hls.go`. -/
structure Segment where
  id : Int
  name : String
  hdr : List Nat
  data : List Nat
  start : Int
  dur : Int
  dcn : Bool
  state : SegState
deriving DecidableEq, Repr

/-- Modelled from the spec: the free constructor `newSegment(id, hdr, workDir)`
called by `hls.go` lines 113 and 141.  Produces a `Created` segment holding
only the header bytes, with a resource name derived from the numeric id
(§3: "identity: a numeric id and a derived resource name").  Storage
allocation failure is modeled at the call sites via the `allocOk` oracle. -/
def newSegment (id : Int) (hdr : List Nat) (_workDir : String) : Segment :=
  { id := id, name := toString id ++ ".ts", hdr := hdr, data := hdr,
    start := 0, dur := 0, dcn := false, state := SegState.created,
    -- workDir selects the backing storage location; it does not affect
    -- the observable fields modeled here
    }

/-- Modelled from the spec (§4.3 step 2 and §3 `Active`): activation assigns
the start time, the provisional target duration, and the pending
discontinuity flag snapshot. -/
def Segment.activate (s : Segment) (start initialDur : Int) (dcn : Bool) : Segment :=
  { s with start := start, dur := initialDur, dcn := dcn, state := SegState.active }

/-- Modelled from the spec (§3 `Finalized`): the duration is fixed to
(next segment's start time) − (this segment's start time); the payload
becomes immutable. -/
def Segment.Finalize (s : Segment) (next : Int) : Segment :=
  { s with dur := next - s.start, state := SegState.finalized }

/-- Modelled from the spec (§3 `Released`): payload storage is freed; the
segment is no longer servable. -/
def Segment.Release (s : Segment) : Segment :=
  { s with data := [], state := SegState.released }

/-- Modelled from the spec (§4.5 / §2): the writer appends muxed bytes to the
Active segment's payload. -/
def Segment.Write (s : Segment) (b : List Nat) : Segment :=
  { s with data := s.data ++ b }

/-- Modelled from the spec (§6): a segment's own playlist entry — an optional
discontinuity marker line, the duration tag, and the URI; a still-`Created`
segment appears only as an LHLS prefetch hint and only when prefetch is
enabled.  The exact entry text is produced by segment code absent from the
given source; no claim depends on it. -/
def Segment.Format (s : Segment) (prefetch : Bool) : String :=
  let d := if s.dcn then "#EXT-X-DISCONTINUITY\n" else ""
  if s.state = SegState.created then
    (if prefetch then d ++ "#EXT-X-PREFETCH:" ++ s.name ++ "\n" else "")
  else
    d ++ "#EXTINF:" ++ toString s.dur ++ ",\n" ++ s.name ++ "\n"

/-- hlsState (src/hls.go lines 42-46): the lock-free snapshot published to
readers.  The Go `[]byte` playlist is a `String` here. -/
structure HlsState where
  playlist : String
  segments : List Segment
deriving DecidableEq, Repr

/-- Errors surfaced by the ingestion path: `mux` = the ts.Muxer rejected
input, `storage` = segment allocation failed (`newSegment` returned an
error), `write` = writing the muxed bytes into the current segment
failed. -/
inductive WpError where
  | storage : WpError
  | mux : WpError
  | write : WpError
deriving DecidableEq, Repr

/-- The parts of av.Packet that hls.go reads: the keyframe flag and the
presentation time (nanoseconds).  The payload goes to the muxer, which is
an oracle here. -/
structure Packet where
  isKeyFrame : Bool
  time : Int
deriving DecidableEq, Repr

/-- Publisher (src/hls.go lines 16-40).  `state` is the atomic.Value: `none`
until the first Store.  `muxBuf` and the `ts.Muxer` handle are collaborator
state and are modeled by the per-call oracles instead.  `current` mirrors
the Go pointer that aliases the last element of `segments`. -/
structure Publisher where
  InitialDuration : Int
  BufferLength : Int
  WorkDir : String
  Prefetch : Bool
  Precreate : Int
  segments : List Segment
  presegs : List Segment
  segNum : Int
  seq : Int
  dcn : Bool
  dcnseq : Int
  state : Option HlsState
  current : Option Segment
  muxHdr : List Nat
deriving DecidableEq, Repr

/-- A zero-value Publisher, as produced by `&hls.Publisher{}` in Go. -/
def emptyPublisher : Publisher :=
  { InitialDuration := 0, BufferLength := 0, WorkDir := "", Prefetch := false,
    Precreate := 0, segments := [], presegs := [], segNum := 0, seq := 0,
    dcn := false, dcnseq := 0, state := none, current := none, muxHdr := [] }

/-- Go `d.Round(time.Second)` for a duration `d` in nanoseconds
(src/hls.go line 159): round to the nearest multiple of 10^9, halfway
values away from zero.  Go `%` is truncated remainder (`Int.tmod`).  The
int64 overflow saturation branches of time.Duration.Round are not modeled
(they require |d| within one second of 2^63 ns ≈ 292 years). -/
def durRoundSecond (d : Int) : Int :=
  let m : Int := 1000000000
  let r := Int.tmod d m
  if d < 0 then
    if (-r) + (-r) < m then d + (-r) else d - m + (-r)
  else
    if r + r < m then d - r else d + m - r

/-- Publisher.targetDuration (src/hls.go lines 152-167): the running maximum
of `chunk.dur` over `p.segments`, rounded via `durRoundSecond`, falling back
to `InitialDuration` and then to 5 seconds while zero. -/
def Publisher.targetDuration (p : Publisher) : Int :=
  let maxTime := p.segments.foldl (fun m c => if c.dur > m then c.dur else m) 0
  let r0 := durRoundSecond maxTime
  let r1 := if r0 = 0 then p.InitialDuration else r0
  if r1 = 0 then 5000000000 else r1

/-- Body of the eviction loop in Publisher.trimSegments (src/hls.go lines
183-189): per evicted segment, increment `seq`, and `dcnseq` when the
segment carried the discontinuity flag.  The loop also calls
`seg.Release()`; with value semantics the released segment leaves the
publisher state, see `Segment.Release` for the transition itself. -/
def evictStep (q : Publisher) (seg : Segment) : Publisher :=
  { q with seq := q.seq + 1,
           dcnseq := if seg.dcn then q.dcnseq + 1 else q.dcnseq }

/-- The keep-window size computed by Publisher.trimSegments (src/hls.go
lines 171-178): `int((goalLen+segmentLen-1)/segmentLen + 1)` floored at 10,
with `goalLen` defaulting to 60s when BufferLength is zero. -/
def trimKeep (p : Publisher) (segmentLen : Int) : Int :=
  let goalLen := if p.BufferLength = 0 then 60000000000 else p.BufferLength
  let k := Int.tdiv (goalLen + segmentLen - 1) segmentLen + 1
  if k < 10 then 10 else k

/-- Publisher.trimSegments (src/hls.go lines 170-191): evict from the front
of `segments` until at most `trimKeep` remain, counting `seq`/`dcnseq` per
evicted segment. -/
def Publisher.trimSegments (p : Publisher) (segmentLen : Int) : Publisher :=
  let n : Int := (p.segments.length : Int) - trimKeep p segmentLen
  if n ≤ 0 then p
  else
    let p1 := (p.segments.take n.toNat).foldl evictStep p
    { p1 with segments := p.segments.drop n.toNat }

/-- Replace the last element of a list: the effect, under value semantics,
of mutating through Go's `p.current` pointer, which aliases the last
element of `p.segments`. -/
def setLast : List Segment → Segment → List Segment
  | [], _ => []
  | [_], c => [c]
  | x :: y :: xs, c => x :: setLast (y :: xs) c

/-- The precreate refill loop of Publisher.newSegment (src/hls.go lines
140-147): while `len(presegs) < Precreate`, allocate a header-only segment
and advance `segNum`.  `fuel` is the number of missing presegs, so the
recursion matches the loop exactly.  Returns the new presegs, the new
segNum, the number of segments allocated (ghost count), and whether every
allocation succeeded (on the first failure the loop returns the error;
earlier appends are kept, as in Go). -/
def refillPresegs (hdr : List Nat) (wd : String) (allocOk : Int → Bool) :
    Nat → Int → List Segment → List Segment × Int × Nat × Bool
  | 0, num, segs => (segs, num, 0, true)
  | k + 1, num, segs =>
      if allocOk num then
        let r := refillPresegs hdr wd allocOk k (num + 1) (segs ++ [newSegment num hdr wd])
        (r.1, r.2.1, r.2.2.1 + 1, r.2.2.2)
      else (segs, num, 0, false)

/-- Playlist text assembly (src/hls.go lines 125-136).  Go prints
`int(initialDur.Seconds())`: float64 conversion then truncation, which is
exact integer division by 10^9 for the magnitudes involved (|d| < 2^53 ns),
hence `Int.tdiv`.  The DISCONTINUITY-SEQUENCE line is omitted when zero. -/
def buildPlaylist (initialDur seq dcnseq : Int) (segs : List Segment) (prefetch : Bool) : String :=
  let b := "#EXTM3U\n#EXT-X-VERSION:3\n#EXT-X-TARGETDURATION:"
             ++ toString (Int.tdiv initialDur 1000000000) ++ "\n"
             ++ "#EXT-X-MEDIA-SEQUENCE:" ++ toString seq ++ "\n"
  let b := if dcnseq ≠ 0 then
             b ++ "#EXT-X-DISCONTINUITY-SEQUENCE:" ++ toString dcnseq ++ "\n"
           else b
  segs.foldl (fun acc c => acc ++ Segment.Format c prefetch) b

/-- Publisher.newSegment, lines 118-148 of src/hls.go, from the point where
the new current segment `s` is in hand: activate it (consuming the pending
discontinuity flag), advance `segNum`, append to the window, trim, build
and atomically publish the snapshot (which includes the presegs), then
refill the precreate queue.  `nCreated` is the ghost allocation count
accumulated so far by the caller. -/
def Publisher.activateAndPublish (p : Publisher) (s : Segment)
    (start initialDur : Int) (allocOk : Int → Bool) (nCreated : Nat) :
    Publisher × Nat × Option WpError :=
  let c := Segment.activate s start initialDur p.dcn
  let p := { p with current := some c, dcn := false, segNum := p.segNum + 1,
                    segments := p.segments ++ [c] }
  let p := p.trimSegments initialDur
  let snapSegs := p.segments ++ p.presegs
  let pl := buildPlaylist initialDur p.seq p.dcnseq snapSegs p.Prefetch
  let p := { p with state := some { playlist := pl, segments := snapSegs } }
  let r := refillPresegs p.muxHdr p.WorkDir allocOk
             (p.Precreate - (p.presegs.length : Int)).toNat p.segNum p.presegs
  ({ p with presegs := r.1, segNum := r.2.1 },
   nCreated + r.2.2.1,
   if r.2.2.2 then none else some WpError.storage)

/-- Publisher.newSegment (src/hls.go lines 98-149); named `newSegmentStep`
because the free segment constructor already carries the Go name
`newSegment`.  Finalizes the current segment (through the alias into
`segments`), computes the target duration, seeds `segNum` from the clock on
first use, obtains the next current segment from the precreate queue or the
allocator (on allocation failure Go assigns the returned nil to
`p.current` and stops), then activates and publishes. -/
def Publisher.newSegmentStep (p : Publisher) (start now : Int) (allocOk : Int → Bool) :
    Publisher × Nat × Option WpError :=
  let p1 :=
    match p.current with
    | some c =>
        { p with current := some (Segment.Finalize c start),
                 segments := setLast p.segments (Segment.Finalize c start) }
    | none => p
  let initialDur := p1.targetDuration
  let p2 := if p1.segNum = 0 then { p1 with segNum := now } else p1
  match p2.presegs with
  | s :: rest =>
      Publisher.activateAndPublish { p2 with presegs := rest } s start initialDur allocOk 0
  | [] =>
      if allocOk p2.segNum then
        Publisher.activateAndPublish p2 (newSegment p2.segNum p2.muxHdr p2.WorkDir)
          start initialDur allocOk 1
      else
        ({ p2 with current := none }, 0, some WpError.storage)

/-- Publisher.WritePacket (src/hls.go lines 69-90).  Oracles: `muxOut` is
the muxer's output for this packet (`none` = mux error), `writeOk` tells
whether the write into the current segment's backing storage succeeds (per
§7, a failed write leaves the segment without this packet's bytes).  The
ghost `Nat` counts segment allocations performed during the call. -/
def Publisher.WritePacket (p : Publisher) (pkt : Packet) (now : Int)
    (allocOk : Int → Bool) (muxOut : Option (List Nat)) (writeOk : Bool) :
    Publisher × Nat × Option WpError :=
  let r :=
    if pkt.isKeyFrame then Publisher.newSegmentStep p pkt.time now allocOk
    else (p, 0, none)
  match r with
  | (q, n, some e) => (q, n, some e)
  | (q, n, none) =>
    match q.current with
    | none => (q, n, none)
    | some c =>
      match muxOut with
      | none => (q, n, some WpError.mux)
      | some bs =>
          if writeOk then
            ({ q with current := some (Segment.Write c bs),
                      segments := setLast q.segments (Segment.Write c bs) }, n, none)
          else (q, n, some WpError.write)

/-- Publisher.WriteHeader (src/hls.go lines 49-61): ask the muxer for the
header bytes for the given codec data and store them.  The muxer is the
oracle `hdrBytes?` (`none` = mux error, in which case `muxHdr` is left
unchanged). -/
def Publisher.WriteHeader (p : Publisher) (hdrBytes? : Option (List Nat)) :
    Publisher × Option WpError :=
  match hdrBytes? with
  | none => (p, some WpError.mux)
  | some b => ({ p with muxHdr := b }, none)

/-- Publisher.Discontinuity (src/hls.go lines 93-95). -/
def Publisher.Discontinuity (p : Publisher) : Publisher :=
  { p with dcn := true }

/-- Publisher.Close (src/hls.go lines 216-227): store an empty hlsState
value in the atomic (note: a zero value, not an absent one), release every
segment in `segments` and `presegs` (the released values leave the
publisher under value semantics; see `Segment.Release`), and clear the
references. -/
def Publisher.Close (p : Publisher) : Publisher :=
  { p with state := some { playlist := "", segments := [] },
           current := none, segments := [], presegs := [] }

/-- Go path.Base (used in src/hls.go line 200): strip trailing slashes,
then everything up to the final slash; empty input gives ".", all-slash
input gives "/". -/
def pathBase (s : String) : String :=
  if s = "" then "." else
    let r := s.data.reverse.dropWhile (fun c => c = '/')
    let b := r.takeWhile (fun c => c ≠ '/')
    if b = [] then "/" else String.mk b.reverse

/-- The three shapes of response Publisher.ServeHTTP can produce:
`notFound` is http.NotFound (a 404); `playlist` is a 200 carrying the
playlist bytes with the HLS content type; `seg` delegates to the named
segment's own serving method (never a dispatcher 404). -/
inductive HResponse where
  | notFound : HResponse
  | playlist : String → HResponse
  | seg : Segment → HResponse
deriving DecidableEq, Repr

/-- Publisher.ServeHTTP (src/hls.go lines 194-213): load the snapshot (404
if the atomic was never stored), then dispatch on the basename of the
request path: the playlist for "index.m3u8", else a linear scan of the
snapshot's segment list by name, else 404. -/
def Publisher.ServeHTTP (p : Publisher) (reqPath : String) : HResponse :=
  match p.state with
  | none => HResponse.notFound
  | some st =>
      let bn := pathBase reqPath
      if bn = "index.m3u8" then HResponse.playlist st.playlist
      else
        match st.segments.find? (fun c => c.name = bn) with
        | some c => HResponse.seg c
        | none => HResponse.notFound

/-- Drive a sequence of packets through WritePacket (the single-writer
ingestion loop of §5), with a fixed clock seed and oracles; accumulates the
ghost count of segments allocated across the whole run.  Errors do not stop
the run (§7: ingestion may continue with the next packet). -/
def runPackets (now : Int) (allocOk : Int → Bool)
    (mux : Packet → Option (List Nat)) (writeOk : Bool) :
    Publisher → List Packet → Publisher × Nat
  | p, [] => (p, 0)
  | p, pkt :: rest =>
      let r := Publisher.WritePacket p pkt now allocOk (mux pkt) writeOk
      let rr := runPackets now allocOk mux writeOk r.1 rest
      (rr.1, r.2.1 + rr.2)

/-- The windowed-accounting quantity: `seq` plus the number of windowed
segments plus the number of precreated segments. -/
def windowAccount (p : Publisher) : Int :=
  p.seq + (p.segments.length : Int) + (p.presegs.length : Int)

/-- Integer ceiling division, `⌈a / b⌉` for `b > 0`, written as
`-⌊(-a) / b⌋`. -/
def intCeilDiv (a b : Int) : Int := -((-a) / b)

/-- The keep-window size exactly as claim C1 states it:
`max(10, ceil(bufferLength / estimatedSegmentDuration) + 1)` with
bufferLength defaulting to 60 seconds when unset. -/
def claimedKeepSegments (p : Publisher) (segmentLen : Int) : Int :=
  let bufferLength := if p.BufferLength = 0 then 60000000000 else p.BufferLength
  max 10 (intCeilDiv bufferLength segmentLen + 1)

/-- Number of segments the trim step evicts, expressed through the claimed
keep formula. -/
def evictedCount (p : Publisher) (segmentLen : Int) : Nat :=
  ((p.segments.length : Int) - claimedKeepSegments p segmentLen).toNat

/-- The target duration exactly as claim C2 states it: the maximum
finalized segment duration among the windowed segments rounded UP to whole
seconds; the configured InitialDuration when no windowed segment is
finalized; 5 seconds when that is also unset. -/
def claimedTargetDuration (p : Publisher) : Int :=
  let fins := (p.segments.filter (fun s => s.state = SegState.finalized)).map Segment.dur
  match fins with
  | [] => if p.InitialDuration = 0 then 5000000000 else p.InitialDuration
  | _ => 1000000000 * intCeilDiv (fins.foldr max 0) 1000000000

/-- A concrete finalized segment, used by witnesses and counterexamples. -/
def sampleSeg : Segment :=
  { id := 7, name := "7.ts", hdr := [], data := [], start := 0, dur := 1000000000,
    dcn := false, state := SegState.finalized }

/-- A finalized segment carrying the discontinuity flag. -/
def sampleSegDcn : Segment :=
  { sampleSeg with id := 6, name := "6.ts", dcn := true }

/-- Witness publisher for the trim theorems: a 1 ns BufferLength and 11
windowed segments force one eviction (keep floor is 10). -/
def witPub1 : Publisher :=
  { emptyPublisher with
      BufferLength := 1,
      segments := sampleSegDcn :: List.replicate 10 sampleSeg }

/-- Publisher exhibiting round-to-nearest: one finalized 5.4 s segment. -/
def roundPub : Publisher :=
  { emptyPublisher with segments := [{ sampleSeg with dur := 5400000000 }] }

/-- A publisher with a published snapshot containing the segment "7.ts". -/
def snapPub : Publisher :=
  { emptyPublisher with
      segments := [sampleSeg],
      state := some { playlist := "#EXTM3U\n", segments := [sampleSeg] } }

/-- A publisher mid-stream: an Active current segment aliased into the
window. -/
def midPub : Publisher :=
  { emptyPublisher with
      segments := [{ sampleSeg with state := SegState.active }],
      current := some { sampleSeg with state := SegState.active } }

/-- The WritePacket call of the C5 counterexample: first keyframe into a
fresh publisher with one precreate slot; the main allocation (id 42)
succeeds, the precreate-refill allocation (id 43) fails. -/
def refillFailRun : Publisher × Nat × Option WpError :=
  Publisher.WritePacket { emptyPublisher with Precreate := 1 }
    { isKeyFrame := true, time := 0 } 42 (fun i => decide (i = 42)) (some []) true

/-- The WritePacket call of the C8 counterexample: first keyframe into a
fresh publisher with one precreate slot, all allocations succeeding. -/
def precreateRun : Publisher × Nat × Option WpError :=
  Publisher.WritePacket { emptyPublisher with Precreate := 1 }
    { isKeyFrame := true, time := 0 } 42 (fun _ => true) (some []) true

theorem setLast_length (l : List Segment) (c : Segment) :
    (setLast l c).length = l.length := by
  induction l with
  | nil => rfl
  | cons x xs ih =>
      cases xs with
      | nil => rfl
      | cons y ys => simpa [setLast] using ih

theorem foldl_evictStep (l : List Segment) (q : Publisher) :
    l.foldl evictStep q =
      { q with seq := q.seq + (l.length : Int),
               dcnseq := q.dcnseq + (((l.filter fun s => s.dcn).length : Nat) : Int) } := by
  induction l generalizing q with
  | nil => simp
  | cons s t ih =>
      rw [List.foldl_cons, ih]
      cases q
      simp only [evictStep, List.length_cons, List.filter_cons]
      by_cases h : s.dcn <;> simp [h] <;> omega

theorem trimSegments_char (p : Publisher) (d : Int) :
    Publisher.trimSegments p d =
      { p with
        seq := p.seq +
          (((p.segments.take (((p.segments.length : Int) - trimKeep p d).toNat)).length : Nat) : Int),
        dcnseq := p.dcnseq +
          ((((p.segments.take (((p.segments.length : Int) - trimKeep p d).toNat)).filter
              fun s => s.dcn).length : Nat) : Int),
        segments := p.segments.drop (((p.segments.length : Int) - trimKeep p d).toNat) } := by
  simp only [Publisher.trimSegments]
  split
  · next h =>
      have h0 : ((p.segments.length : Int) - trimKeep p d).toNat = 0 := by omega
      rw [h0]
      simp
  · next h =>
      rw [foldl_evictStep]

theorem tdiv_formula_eq_ceil (a b : Int) (hb : 0 < b) (ha : 0 ≤ a) :
    Int.tdiv (a + b - 1) b = intCeilDiv a b := by
  rw [Int.tdiv_eq_ediv (by omega) (by omega)]
  unfold intCeilDiv
  set q1 : Int := (a + b - 1) / b with hq1
  set q2 : Int := (-a) / b with hq2
  set r1 : Int := (a + b - 1) % b with hr1
  set r2 : Int := (-a) % b with hr2
  have e1 : b * q1 + r1 = a + b - 1 := Int.ediv_add_emod (a + b - 1) b
  have e2 : b * q2 + r2 = -a := Int.ediv_add_emod (-a) b
  have r1a : 0 ≤ r1 := Int.emod_nonneg _ (by omega)
  have r1b : r1 < b := Int.emod_lt_of_pos _ hb
  have r2a : 0 ≤ r2 := Int.emod_nonneg _ (by omega)
  have r2b : r2 < b := Int.emod_lt_of_pos _ hb
  have key : b * (q1 + q2) = b - 1 - (r1 + r2) := by linear_combination e1 + e2
  have lt1 : b * (q1 + q2) < b * 1 := by rw [mul_one]; linarith
  have gt1 : b * (-1) < b * (q1 + q2) := by
    have hb' : b * (-1) = -b := by ring
    rw [hb']; linarith
  have s1 : q1 + q2 < 1 := lt_of_mul_lt_mul_left lt1 (by omega)
  have s2 : (-1 : Int) < q1 + q2 := lt_of_mul_lt_mul_left gt1 (by omega)
  omega

theorem trimKeep_eq_claimed (p : Publisher) (d : Int) (hd : 0 < d)
    (hb : 0 ≤ p.BufferLength) :
    trimKeep p d = claimedKeepSegments p d := by
  simp only [trimKeep, claimedKeepSegments]
  have hg : 0 ≤ (if p.BufferLength = 0 then (60000000000 : Int) else p.BufferLength) := by
    split <;> omega
  rw [tdiv_formula_eq_ceil _ d hd hg]
  rcases le_or_lt (intCeilDiv (if p.BufferLength = 0 then (60000000000 : Int) else p.BufferLength) d + 1) 10 with h | h
  · rw [max_eq_left h]
    omega
  · rw [max_eq_right (le_of_lt h)]
    omega

/-- C1: on every keyframe the trim step evicts from the front of `segments`
until its length is at most keepSegments = max(10, ceil(bufferLength /
estimatedSegmentDuration) + 1), with bufferLength defaulting to 60 s when
the BufferLength configuration is zero; hence after every trim
len(segments) ≤ keepSegments. -/
theorem trim_window_bound (p : Publisher) (d : Int) (hd : 0 < d)
    (hb : 0 ≤ p.BufferLength) :
    ((Publisher.trimSegments p d).segments.length : Int) ≤ claimedKeepSegments p d := by
  rw [trimSegments_char]
  have hk := trimKeep_eq_claimed p d hd hb
  have h10 : (10 : Int) ≤ claimedKeepSegments p d := le_max_left _ _
  simp only [List.length_drop]
  omega

theorem trim_window_bound_witness :
    ((0 : Int) < 1 ∧ (0 : Int) ≤ witPub1.BufferLength) ∧
    ((Publisher.trimSegments witPub1 1).segments.length : Int) ≤ claimedKeepSegments witPub1 1 :=
  ⟨⟨by decide, by decide⟩, trim_window_bound witPub1 1 (by decide) (by decide)⟩

/-- C3: the trim step evicts exactly the first `evictedCount` segments;
each eviction increments `seq` by one and `dcnseq` by one exactly when the
evicted segment carried the discontinuity flag, and the evicted segment is
Released; hence across a run `seq` grows by the number of evicted segments
and `dcnseq` by the number of evicted segments with the flag set. -/
theorem trim_eviction_accounting (p : Publisher) (d : Int) (hd : 0 < d)
    (hb : 0 ≤ p.BufferLength) :
    (Publisher.trimSegments p d).segments = p.segments.drop (evictedCount p d) ∧
    (Publisher.trimSegments p d).seq
      = p.seq + (((p.segments.take (evictedCount p d)).length : Nat) : Int) ∧
    (Publisher.trimSegments p d).dcnseq
      = p.dcnseq + ((((p.segments.take (evictedCount p d)).filter fun s => s.dcn).length : Nat) : Int) ∧
    ∀ s ∈ p.segments.take (evictedCount p d),
      (Segment.Release s).state = SegState.released ∧ (Segment.Release s).data = [] := by
  have hev : evictedCount p d = ((p.segments.length : Int) - trimKeep p d).toNat := by
    unfold evictedCount
    rw [trimKeep_eq_claimed p d hd hb]
  rw [hev, trimSegments_char]
  refine ⟨rfl, rfl, rfl, ?_⟩
  intro s _
  exact ⟨rfl, rfl⟩

theorem trim_eviction_accounting_witness :
    ((0 : Int) < 1 ∧ (0 : Int) ≤ witPub1.BufferLength) ∧
    ((Publisher.trimSegments witPub1 1).segments = witPub1.segments.drop (evictedCount witPub1 1) ∧
     (Publisher.trimSegments witPub1 1).seq
       = witPub1.seq + (((witPub1.segments.take (evictedCount witPub1 1)).length : Nat) : Int) ∧
     (Publisher.trimSegments witPub1 1).dcnseq
       = witPub1.dcnseq + ((((witPub1.segments.take (evictedCount witPub1 1)).filter fun s => s.dcn).length : Nat) : Int) ∧
     ∀ s ∈ witPub1.segments.take (evictedCount witPub1 1),
       (Segment.Release s).state = SegState.released ∧ (Segment.Release s).data = []) :=
  ⟨⟨by decide, by decide⟩, trim_eviction_accounting witPub1 1 (by decide) (by decide)⟩

theorem foldr_max_shift (t : List Segment) (a b : Int) :
    t.foldr (fun c r => max c.dur r) (max a b)
      = max a (t.foldr (fun c r => max c.dur r) b) := by
  induction t with
  | nil => rfl
  | cons c t ih => simp [List.foldr_cons, ih, max_left_comm]

theorem foldl_dur_max (l : List Segment) (a : Int) :
    l.foldl (fun m c => if c.dur > m then c.dur else m) a
      = l.foldr (fun c r => max c.dur r) a := by
  induction l generalizing a with
  | nil => rfl
  | cons c t ih =>
      rw [List.foldl_cons, ih]
      have he : (if c.dur > a then c.dur else a) = max c.dur a := by
        rcases le_total c.dur a with h | h
        · rw [max_eq_right h]
          split <;> omega
        · rw [max_eq_left h]
          split <;> omega
      rw [he, foldr_max_shift]
      rfl

/-- C2 (amended): targetDuration returns the maximum `dur` among the
windowed segments rounded to the NEAREST whole second (halfway away from
zero, Go's Duration.Round), falling back to InitialDuration whenever that
rounded maximum is zero (in particular when no segment has been finalized),
and to 5 seconds when InitialDuration is also zero.  The claim's
"rounded up" is refuted by `targetDuration_round_counterexample`. -/
theorem targetDuration_characterization (p : Publisher) :
    Publisher.targetDuration p =
      (if durRoundSecond ((p.segments.map Segment.dur).foldr max 0) = 0 then
         (if p.InitialDuration = 0 then 5000000000 else p.InitialDuration)
       else durRoundSecond ((p.segments.map Segment.dur).foldr max 0)) := by
  simp only [Publisher.targetDuration]
  rw [foldl_dur_max, ← List.foldr_map]
  by_cases h0 : durRoundSecond ((p.segments.map Segment.dur).foldr max 0) = 0
  · by_cases hI : p.InitialDuration = 0 <;> simp [h0, hI]
  · simp [h0]

/-- C2 is false as stated: a single finalized segment of 5.4 s yields a
target duration of 5 s (the code rounds to the nearest second), while the
claimed rounding-up gives 6 s. -/
theorem targetDuration_round_counterexample :
    Publisher.targetDuration roundPub = 5000000000 ∧
    claimedTargetDuration roundPub = 6000000000 ∧
    Publisher.targetDuration roundPub ≠ claimedTargetDuration roundPub := by
  refine ⟨by decide, by decide, by decide⟩

/-- C7: a non-keyframe packet arriving while no Active segment exists is
dropped: WritePacket succeeds (no error), performs no allocation, and
leaves the publisher unchanged. -/
theorem writePacket_drop_before_first_keyframe (p : Publisher) (pkt : Packet)
    (now : Int) (allocOk : Int → Bool) (muxOut : Option (List Nat)) (writeOk : Bool)
    (hk : pkt.isKeyFrame = false) (hc : p.current = none) :
    Publisher.WritePacket p pkt now allocOk muxOut writeOk = (p, 0, none) := by
  simp [Publisher.WritePacket, hk, hc]

theorem writePacket_drop_before_first_keyframe_witness :
    (({ isKeyFrame := false, time := 3 } : Packet).isKeyFrame = false ∧
     emptyPublisher.current = none) ∧
    Publisher.WritePacket emptyPublisher { isKeyFrame := false, time := 3 } 0
      (fun _ => true) (some [1]) true = (emptyPublisher, 0, none) :=
  ⟨⟨rfl, rfl⟩,
   writePacket_drop_before_first_keyframe emptyPublisher { isKeyFrame := false, time := 3 }
     0 (fun _ => true) (some [1]) true rfl rfl⟩

/-- C4 (amended): Close publishes the empty snapshot (an empty zero value,
not an absent one), clears the window, the precreate queue and the current
pointer, is idempotent, and Release moves every previously held segment to
the Released state; afterwards every request whose basename is not
"index.m3u8" — in particular every previously valid segment name — receives
a 404, but a request for the playlist name is answered with a 200 carrying
an empty playlist body, not with a 404 as the claim states (refuted by
`close_playlist_not_found_counterexample`). -/
theorem close_behavior_amended (p : Publisher) (path1 path2 : String)
    (h1 : pathBase path1 = "index.m3u8") (h2 : pathBase path2 ≠ "index.m3u8") :
    Publisher.ServeHTTP (Publisher.Close p) path1 = HResponse.playlist "" ∧
    Publisher.ServeHTTP (Publisher.Close p) path2 = HResponse.notFound ∧
    Publisher.Close (Publisher.Close p) = Publisher.Close p ∧
    (Publisher.Close p).state = some { playlist := "", segments := [] } ∧
    (Publisher.Close p).segments = [] ∧
    (Publisher.Close p).presegs = [] ∧
    (Publisher.Close p).current = none ∧
    ∀ s ∈ p.segments ++ p.presegs,
      (Segment.Release s).state = SegState.released ∧ (Segment.Release s).data = [] := by
  refine ⟨?_, ?_, rfl, rfl, rfl, rfl, rfl, ?_⟩
  · simp [Publisher.ServeHTTP, Publisher.Close, h1]
  · simp [Publisher.ServeHTTP, Publisher.Close, h2]
  · intro s _
    exact ⟨rfl, rfl⟩

theorem close_behavior_amended_witness :
    (pathBase "/hls/index.m3u8" = "index.m3u8" ∧
     pathBase "/hls/7.ts" ≠ "index.m3u8") ∧
    (Publisher.ServeHTTP (Publisher.Close snapPub) "/hls/index.m3u8" = HResponse.playlist "" ∧
     Publisher.ServeHTTP (Publisher.Close snapPub) "/hls/7.ts" = HResponse.notFound ∧
     Publisher.Close (Publisher.Close snapPub) = Publisher.Close snapPub ∧
     (Publisher.Close snapPub).state = some { playlist := "", segments := [] } ∧
     (Publisher.Close snapPub).segments = [] ∧
     (Publisher.Close snapPub).presegs = [] ∧
     (Publisher.Close snapPub).current = none ∧
     ∀ s ∈ snapPub.segments ++ snapPub.presegs,
       (Segment.Release s).state = SegState.released ∧ (Segment.Release s).data = []) :=
  ⟨⟨by decide, by decide⟩,
   close_behavior_amended snapPub "/hls/index.m3u8" "/hls/7.ts" (by decide) (by decide)⟩

/-- C4 is false as stated: the segment "7.ts" is valid before Close, and
after Close a request for any segment name does 404, but the playlist
request is answered with an empty 200 playlist response — not a 404 —
because Close stores a zero hlsState value, which the reader's type
assertion accepts. -/
theorem close_playlist_not_found_counterexample :
    Publisher.ServeHTTP snapPub "/hls/7.ts" = HResponse.seg sampleSeg ∧
    Publisher.ServeHTTP (Publisher.Close snapPub) "/hls/7.ts" = HResponse.notFound ∧
    Publisher.ServeHTTP (Publisher.Close snapPub) "/hls/index.m3u8" = HResponse.playlist "" ∧
    Publisher.ServeHTTP (Publisher.Close snapPub) "/hls/index.m3u8" ≠ HResponse.notFound := by
  refine ⟨by decide, by decide, by decide, by decide⟩

/-- C9 (amended): ServeHTTP dispatches on the basename of the request path
alone — the response is 404 exactly when no snapshot was ever published, or
the basename is neither "index.m3u8" nor the name of a segment of the
current snapshot.  In particular `<mount>/<segment-name>` requests behave
as the claim says, but a path with extra components whose basename matches
a snapshot segment is served rather than 404'd (see
`dispatch_basename_counterexample`). -/
theorem serve_notFound_characterization (p : Publisher) (path : String) :
    Publisher.ServeHTTP p path = HResponse.notFound ↔
      (p.state = none ∨
        ∃ st, p.state = some st ∧ pathBase path ≠ "index.m3u8" ∧
          ∀ c ∈ st.segments, c.name ≠ pathBase path) := by
  unfold Publisher.ServeHTTP
  cases hs : p.state with
  | none => simp
  | some st =>
      simp only [hs, Option.some.injEq]
      by_cases hb : pathBase path = "index.m3u8"
      · simp [hb]
      · simp only [hb, if_false]
        cases hf : st.segments.find? (fun c => c.name = pathBase path) with
        | none =>
            simp only [List.find?_eq_none, decide_eq_true_eq] at hf
            simp only [hb]
            constructor
            · intro _
              exact Or.inr ⟨st, rfl, hb, hf⟩
            · intro _
              trivial
        | some c =>
            have hc := List.find?_some hf
            have hm := List.mem_of_find?_eq_some hf
            simp only [decide_eq_true_eq] at hc
            constructor
            · intro h
              exact absurd h (by simp)
            · rintro (h | ⟨st2, hst2, _, hall⟩)
              · exact absurd h (by simp)
              · cases hst2
                exact absurd hc (hall c hm)

/-- C9 is false as stated: with mount "/hls" and the snapshot containing
the segment named "7.ts", the request path "/hls/sub/7.ts" is neither the
playlist path "/hls/index.m3u8" nor "/hls/" followed by a snapshot segment
name, yet the dispatcher serves the segment (it matches by basename)
instead of responding 404. -/
theorem dispatch_basename_counterexample :
    Publisher.ServeHTTP snapPub "/hls/sub/7.ts" = HResponse.seg sampleSeg ∧
    Publisher.ServeHTTP snapPub "/hls/sub/7.ts" ≠ HResponse.notFound ∧
    ("/hls/sub/7.ts" : String) ≠ "/hls/index.m3u8" ∧
    ("/hls/sub/7.ts" : String) ≠ "/hls/" ++ sampleSeg.name ∧
    snapPub.state = some { playlist := "#EXTM3U\n", segments := [sampleSeg] } := by
  refine ⟨by decide, by decide, by decide, by decide, by decide⟩

/-- C5 (amended): when WritePacket fails on a non-keyframe packet — mux
failure or a failed write into the current segment — the publisher value
(in particular `seq`, `dcnseq`, `segNum` and the published state) is
completely unchanged and ingestion may continue; the claim as stated is
false for keyframe packets, because a storage failure during precreate
refill returns an error after the new snapshot has been published and
`segNum` advanced (see `writePacket_error_after_publish_counterexample`). -/
theorem writePacket_nonkeyframe_error_preserves (p : Publisher) (pkt : Packet)
    (now : Int) (allocOk : Int → Bool) (muxOut : Option (List Nat)) (writeOk : Bool)
    (hk : pkt.isKeyFrame = false)
    (he : (Publisher.WritePacket p pkt now allocOk muxOut writeOk).2.2 ≠ none) :
    (Publisher.WritePacket p pkt now allocOk muxOut writeOk).1 = p := by
  cases hc : p.current with
  | none => simp [Publisher.WritePacket, hk, hc]
  | some c =>
      cases muxOut with
      | none => simp [Publisher.WritePacket, hk, hc]
      | some bs =>
          by_cases hw : writeOk
          · exfalso
            apply he
            simp [Publisher.WritePacket, hk, hc, hw]
          · simp [Publisher.WritePacket, hk, hc, hw]

theorem writePacket_nonkeyframe_error_preserves_witness :
    (({ isKeyFrame := false, time := 3 } : Packet).isKeyFrame = false ∧
     (Publisher.WritePacket midPub { isKeyFrame := false, time := 3 } 0
        (fun _ => true) none true).2.2 ≠ none) ∧
    (Publisher.WritePacket midPub { isKeyFrame := false, time := 3 } 0
        (fun _ => true) none true).1 = midPub :=
  ⟨⟨rfl, by decide⟩,
   writePacket_nonkeyframe_error_preserves midPub { isKeyFrame := false, time := 3 }
     0 (fun _ => true) none true rfl (by decide)⟩

/-- C5 is false as stated: `refillFailRun` (first keyframe, Precreate = 1,
refill allocation fails) returns a storage error, yet the very same call
has already published a new snapshot and advanced `segNum` from 0 to 43
(ghost count: one segment was created). -/
theorem writePacket_error_after_publish_counterexample :
    refillFailRun.2.2 = some WpError.storage ∧
    refillFailRun.1.segNum = 43 ∧
    ({ emptyPublisher with Precreate := 1 } : Publisher).segNum = 0 ∧
    refillFailRun.1.state ≠ ({ emptyPublisher with Precreate := 1 } : Publisher).state ∧
    refillFailRun.1.state ≠ none := by
  refine ⟨by decide, by decide, by decide, by decide, by decide⟩

theorem refillPresegs_length (hdr : List Nat) (wd : String) (a : Int → Bool)
    (fuel : Nat) (num : Int) (segs : List Segment) :
    (refillPresegs hdr wd a fuel num segs).1.length
      = segs.length + (refillPresegs hdr wd a fuel num segs).2.2.1 := by
  induction fuel generalizing num segs with
  | zero => simp [refillPresegs]
  | succ k ih =>
      by_cases h : a num
      · simp only [refillPresegs, h, if_true]
        rw [ih]
        simp only [List.length_append, List.length_singleton]
        omega
      · simp [refillPresegs, h]

theorem refillPresegs_hdr_mem (hdr : List Nat) (wd : String) (a : Int → Bool)
    (fuel : Nat) (num : Int) (segs : List Segment) (s : Segment)
    (hs : s ∈ (refillPresegs hdr wd a fuel num segs).1) :
    s ∈ segs ∨ s.hdr = hdr := by
  induction fuel generalizing num segs with
  | zero =>
      simp only [refillPresegs] at hs
      exact Or.inl hs
  | succ k ih =>
      by_cases h : a num
      · simp only [refillPresegs, h, if_true] at hs
        rcases ih _ _ hs with h1 | h1
        · rcases List.mem_append.mp h1 with h2 | h2
          · exact Or.inl h2
          · right
            have h3 : s = newSegment num hdr wd := by simpa using h2
            rw [h3]
            rfl
        · exact Or.inr h1
      · simp only [refillPresegs, h, if_false] at hs
        exact Or.inl hs

theorem windowAccount_trim (p : Publisher) (d : Int) :
    windowAccount (Publisher.trimSegments p d) = windowAccount p := by
  rw [trimSegments_char]
  simp only [windowAccount, List.length_drop, List.length_take]
  omega

theorem aap_current (p : Publisher) (s : Segment) (start d : Int)
    (a : Int → Bool) (n : Nat) :
    (Publisher.activateAndPublish p s start d a n).1.current
      = some (Segment.activate s start d p.dcn) := by
  simp only [Publisher.activateAndPublish, trimSegments_char]

theorem aap_dcn (p : Publisher) (s : Segment) (start d : Int)
    (a : Int → Bool) (n : Nat) :
    (Publisher.activateAndPublish p s start d a n).1.dcn = false := by
  simp only [Publisher.activateAndPublish, trimSegments_char]

theorem aap_presegs_mem (p : Publisher) (s : Segment) (start d : Int)
    (a : Int → Bool) (n : Nat) (x : Segment)
    (hx : x ∈ (Publisher.activateAndPublish p s start d a n).1.presegs) :
    x ∈ p.presegs ∨ x.hdr = p.muxHdr := by
  simp only [Publisher.activateAndPublish, trimSegments_char] at hx
  exact refillPresegs_hdr_mem _ _ _ _ _ _ x hx

theorem windowAccount_aap (p : Publisher) (s : Segment) (start d : Int)
    (a : Int → Bool) (n : Nat) :
    windowAccount (Publisher.activateAndPublish p s start d a n).1
      = windowAccount p + 1 + ((Publisher.activateAndPublish p s start d a n).2.1 : Int) - (n : Int) := by
  simp only [Publisher.activateAndPublish, trimSegments_char, windowAccount]
  rw [refillPresegs_length]
  simp only [List.length_drop, List.length_take, List.length_append,
    List.length_singleton]
  push_cast
  omega

theorem newSegmentStep_consumes_dcn (p : Publisher) (start now : Int) (a : Int → Bool)
    (h : (Publisher.newSegmentStep p start now a).2.2 = none) :
    (Publisher.newSegmentStep p start now a).1.current.map Segment.dcn = some p.dcn ∧
    (Publisher.newSegmentStep p start now a).1.dcn = false := by
  cases hc : p.current <;> by_cases hn : p.segNum = 0 <;> cases hp : p.presegs <;>
    simp only [Publisher.newSegmentStep, hc, hn, hp, ite_true, ite_false, if_true,
      if_false, eq_self_iff_true, not_false_iff] at h ⊢ <;>
    first
      | (split at h <;> simp_all [aap_current, aap_dcn, Segment.activate])
      | simp_all [aap_current, aap_dcn, Segment.activate]

theorem windowAccount_newSegmentStep (p : Publisher) (start now : Int) (a : Int → Bool) :
    windowAccount (Publisher.newSegmentStep p start now a).1
      = windowAccount p + ((Publisher.newSegmentStep p start now a).2.1 : Int) := by
  cases hc : p.current <;> by_cases hn : p.segNum = 0 <;> cases hp : p.presegs <;>
    simp only [Publisher.newSegmentStep, hc, hn, hp, ite_true, ite_false, if_true,
      if_false, eq_self_iff_true, not_false_iff] <;>
    first
      | (split <;>
          [ (rw [windowAccount_aap]
             simp only [windowAccount, setLast_length, hp, List.length_cons]
             push_cast
             omega);
            (simp only [windowAccount, setLast_length, hp, List.length_cons]
             push_cast
             omega) ])
      | (rw [windowAccount_aap]
         simp only [windowAccount, setLast_length, hp, List.length_cons]
         push_cast
         omega)

theorem windowAccount_writePacket (p : Publisher) (pkt : Packet) (now : Int)
    (a : Int → Bool) (m : Option (List Nat)) (w : Bool) :
    windowAccount (Publisher.WritePacket p pkt now a m w).1
      = windowAccount p + ((Publisher.WritePacket p pkt now a m w).2.1 : Int) := by
  by_cases hk : pkt.isKeyFrame
  · have hstep := windowAccount_newSegmentStep p pkt.time now a
    rcases hr : Publisher.newSegmentStep p pkt.time now a with ⟨q, n, e⟩
    rw [hr] at hstep
    cases e with
    | some err => simpa [Publisher.WritePacket, hk, hr] using hstep
    | none =>
        cases hq : q.current with
        | none => simpa [Publisher.WritePacket, hk, hr, hq] using hstep
        | some c =>
            cases m with
            | none => simpa [Publisher.WritePacket, hk, hr, hq] using hstep
            | some bs =>
                by_cases hw : w
                · simp only [Publisher.WritePacket, hk, hr, hq, hw, ite_true, if_true]
                  simp only [windowAccount, setLast_length] at hstep ⊢
                  exact hstep
                · simpa [Publisher.WritePacket, hk, hr, hq, hw] using hstep
  · cases hq : p.current with
    | none => simp [Publisher.WritePacket, hk, hq]
    | some c =>
        cases m with
        | none => simp [Publisher.WritePacket, hk, hq]
        | some bs =>
            by_cases hw : w
            · simp only [Publisher.WritePacket, hk, hq, hw, Bool.false_eq_true,
                ite_false, if_false, ite_true, if_true]
              simp [windowAccount, setLast_length]
            · simp [Publisher.WritePacket, hk, hq, hw]

theorem windowAccount_run (now : Int) (a : Int → Bool) (m : Packet → Option (List Nat))
    (w : Bool) (pkts : List Packet) (p : Publisher) :
    windowAccount (runPackets now a m w p pkts).1
      = windowAccount p + ((runPackets now a m w p pkts).2 : Int) := by
  induction pkts generalizing p with
  | nil => simp [runPackets]
  | cons pkt rest ih =>
      simp only [runPackets]
      rw [ih, windowAccount_writePacket]
      push_cast
      ring

/-- C6: Discontinuity only sets the pending flag; on the next successful
segment activation the newly activated segment carries the flag and the
flag is cleared, a second activation without an intervening Discontinuity
leaves the second segment's flag clear, and finalization (the only
operation applied to the previously Active segment) never changes an
existing segment's flag. -/
theorem discontinuity_next_activation_only (p : Publisher)
    (s1 n1 s2 n2 : Int) (a1 a2 : Int → Bool)
    (h1 : ((Publisher.Discontinuity p).newSegmentStep s1 n1 a1).2.2 = none)
    (h2 : (((Publisher.Discontinuity p).newSegmentStep s1 n1 a1).1.newSegmentStep s2 n2 a2).2.2 = none) :
    Publisher.Discontinuity p = { p with dcn := true } ∧
    ((Publisher.Discontinuity p).newSegmentStep s1 n1 a1).1.current.map Segment.dcn
      = some true ∧
    ((Publisher.Discontinuity p).newSegmentStep s1 n1 a1).1.dcn = false ∧
    (((Publisher.Discontinuity p).newSegmentStep s1 n1 a1).1.newSegmentStep s2 n2 a2).1.current.map Segment.dcn
      = some false ∧
    (∀ (c : Segment) (t : Int), (Segment.Finalize c t).dcn = c.dcn) := by
  have f1 := newSegmentStep_consumes_dcn (Publisher.Discontinuity p) s1 n1 a1 h1
  have f2 := newSegmentStep_consumes_dcn
    ((Publisher.Discontinuity p).newSegmentStep s1 n1 a1).1 s2 n2 a2 h2
  refine ⟨rfl, ?_, f1.2, ?_, fun c t => rfl⟩
  · rw [f1.1]
    rfl
  · rw [f2.1, f1.2]

theorem discontinuity_next_activation_only_witness :
    (((Publisher.Discontinuity emptyPublisher).newSegmentStep 0 42 (fun _ => true)).2.2 = none ∧
     (((Publisher.Discontinuity emptyPublisher).newSegmentStep 0 42 (fun _ => true)).1.newSegmentStep
        5000000000 0 (fun _ => true)).2.2 = none) ∧
    (Publisher.Discontinuity emptyPublisher = { emptyPublisher with dcn := true } ∧
     ((Publisher.Discontinuity emptyPublisher).newSegmentStep 0 42 (fun _ => true)).1.current.map Segment.dcn
       = some true ∧
     ((Publisher.Discontinuity emptyPublisher).newSegmentStep 0 42 (fun _ => true)).1.dcn = false ∧
     (((Publisher.Discontinuity emptyPublisher).newSegmentStep 0 42 (fun _ => true)).1.newSegmentStep
        5000000000 0 (fun _ => true)).1.current.map Segment.dcn = some false ∧
     (∀ (c : Segment) (t : Int), (Segment.Finalize c t).dcn = c.dcn)) :=
  ⟨⟨by decide, by decide⟩,
   discontinuity_next_activation_only emptyPublisher 0 42 5000000000 0
     (fun _ => true) (fun _ => true) (by decide) (by decide)⟩

/-- C8 (amended): the correct accounting includes the precreated segments:
over any ingestion run from a fresh publisher (seq = 0, empty window, empty
precreate queue), seq + len(segments) + len(presegs) equals the total
number of segments ever created (the run's segment-allocation count).  The
claim as stated, without presegs, fails whenever Precreate > 0 (see
`accounting_without_presegs_counterexample`). -/
theorem accounting_with_presegs (now : Int) (a : Int → Bool)
    (m : Packet → Option (List Nat)) (w : Bool) (pkts : List Packet) (p0 : Publisher)
    (h1 : p0.seq = 0) (h2 : p0.segments = []) (h3 : p0.presegs = []) :
    (runPackets now a m w p0 pkts).1.seq
      + ((runPackets now a m w p0 pkts).1.segments.length : Int)
      + ((runPackets now a m w p0 pkts).1.presegs.length : Int)
      = ((runPackets now a m w p0 pkts).2 : Int) := by
  have hr := windowAccount_run now a m w pkts p0
  simp only [windowAccount, h1, h2, h3, List.length_nil] at hr
  simpa [windowAccount] using hr

theorem accounting_with_presegs_witness :
    (emptyPublisher.seq = 0 ∧ emptyPublisher.segments = [] ∧ emptyPublisher.presegs = []) ∧
    (runPackets 42 (fun _ => true) (fun _ => some []) true emptyPublisher
        [{ isKeyFrame := true, time := 0 }]).1.seq
      + ((runPackets 42 (fun _ => true) (fun _ => some []) true emptyPublisher
            [{ isKeyFrame := true, time := 0 }]).1.segments.length : Int)
      + ((runPackets 42 (fun _ => true) (fun _ => some []) true emptyPublisher
            [{ isKeyFrame := true, time := 0 }]).1.presegs.length : Int)
      = ((runPackets 42 (fun _ => true) (fun _ => some []) true emptyPublisher
            [{ isKeyFrame := true, time := 0 }]).2 : Int) :=
  ⟨⟨rfl, rfl, rfl⟩,
   accounting_with_presegs 42 (fun _ => true) (fun _ => some []) true
     [{ isKeyFrame := true, time := 0 }] emptyPublisher rfl rfl rfl⟩

/-- C8 is false as stated: one keyframe into a fresh publisher configured
with Precreate = 1 creates two segments (the newly activated one plus one
precreated), yet seq + len(segments) is 1; the precreated segment is not
accounted for. -/
theorem accounting_without_presegs_counterexample :
    precreateRun.2.1 = 2 ∧
    precreateRun.1.seq + (precreateRun.1.segments.length : Int) = 1 ∧
    precreateRun.1.seq + (precreateRun.1.segments.length : Int) ≠ (precreateRun.2.1 : Int) := by
  refine ⟨by decide, by decide, by decide⟩

/-- C10: WriteHeader may be called more than once: each successful call
replaces the stored muxed header bytes and leaves the existing window and
precreate queue untouched, and every segment created after the call — the
next activated segment (when the precreate queue is empty) and every
precreated segment refilled during that activation — is initialized with
the most recently stored header bytes. -/
theorem writeHeader_replaces_header (p : Publisher) (b b2 : List Nat)
    (start now : Int) (a : Int → Bool)
    (hpre : p.presegs = [])
    (ha : a (if p.segNum = 0 then now else p.segNum) = true) :
    (Publisher.WriteHeader p (some b)).1.muxHdr = b ∧
    (Publisher.WriteHeader (Publisher.WriteHeader p (some b)).1 (some b2)).1.muxHdr = b2 ∧
    (Publisher.WriteHeader p (some b)).1.segments = p.segments ∧
    (Publisher.WriteHeader p (some b)).1.presegs = p.presegs ∧
    ((Publisher.newSegmentStep (Publisher.WriteHeader p (some b)).1 start now a).1.current.map
        Segment.hdr = some b) ∧
    (∀ s ∈ (Publisher.newSegmentStep (Publisher.WriteHeader p (some b)).1 start now a).1.presegs,
        s.hdr = b) := by
  refine ⟨rfl, rfl, rfl, rfl, ?_, ?_⟩
  · cases hc : p.current <;> by_cases hn : p.segNum = 0 <;>
      simp only [hn, ite_true, ite_false, if_true, if_false, eq_self_iff_true] at ha <;>
      simp [Publisher.newSegmentStep, Publisher.WriteHeader, hc, hn, hpre, ha,
        aap_current, Segment.activate, newSegment]
  · cases hc : p.current <;> by_cases hn : p.segNum = 0 <;>
      simp only [hn, ite_true, ite_false, if_true, if_false, eq_self_iff_true] at ha <;>
      simp only [Publisher.newSegmentStep, Publisher.WriteHeader, hc, hn, hpre, ha,
        ite_true, ite_false, if_true, if_false, eq_self_iff_true, not_false_iff] <;>
      intro s hs <;>
      rcases aap_presegs_mem _ _ _ _ _ _ _ hs with hm | hm <;>
      simp_all

theorem writeHeader_replaces_header_witness :
    (emptyPublisher.presegs = [] ∧
     (fun _ : Int => true) (if emptyPublisher.segNum = 0 then 42 else emptyPublisher.segNum) = true) ∧
    ((Publisher.WriteHeader emptyPublisher (some [1])).1.muxHdr = [1] ∧
     (Publisher.WriteHeader (Publisher.WriteHeader emptyPublisher (some [1])).1 (some [2])).1.muxHdr = [2] ∧
     (Publisher.WriteHeader emptyPublisher (some [1])).1.segments = emptyPublisher.segments ∧
     (Publisher.WriteHeader emptyPublisher (some [1])).1.presegs = emptyPublisher.presegs ∧
     ((Publisher.newSegmentStep (Publisher.WriteHeader emptyPublisher (some [1])).1 0 42
        (fun _ => true)).1.current.map Segment.hdr = some [1]) ∧
     (∀ s ∈ (Publisher.newSegmentStep (Publisher.WriteHeader emptyPublisher (some [1])).1 0 42
        (fun _ => true)).1.presegs, s.hdr = [1])) :=
  ⟨⟨rfl, rfl⟩,
   writeHeader_replaces_header emptyPublisher [1] [2] 0 42 (fun _ => true) rfl rfl⟩
